import Mathlib

/-!
# Verification of the emulator-manager ROM identification engine

Shallow embedding of the ROM-identification code (header parsers, CRC32
utility, reference-table resolution, NES header repair, ZIP archive
propagation) from `src/app/plugins/...` and `src/app/core/rom_manager.py`,
together with theorems settling the specification claims.

Files are modelled as `List Nat` (one entry per byte).  I/O failures are
modelled with `Option`: a `none` stat size or `none` content stands for an
`OSError` on `stat`/`read`.
-/

set_option maxRecDepth 20000

namespace EmuMan

/-! ## CRC-32 (zlib / IEEE 802.3) -/

/-- One bit-step of the reflected CRC-32 with polynomial `0xEDB88320`. -/
def crcBitStep (c : Nat) : Nat :=
  if c % 2 = 1 then (c / 2) ^^^ 0xEDB88320 else c / 2

/-- Fold one byte into the running CRC register, as `zlib.crc32` does. -/
def crcByteStep (c b : Nat) : Nat :=
  crcBitStep^[8] (c ^^^ (b % 256))

/-- CRC-32 of a byte list: init `0xFFFFFFFF`, final xor `0xFFFFFFFF`.
This is `zlib.crc32(data, 0) & 0xFFFFFFFF` (standard IEEE 802.3 CRC-32);
the chunked streaming in the Python code computes the same value as one
pass over the whole content. -/
def crc32 (data : List Nat) : Nat :=
  (data.foldl crcByteStep 0xFFFFFFFF) ^^^ 0xFFFFFFFF

/-- Uppercase hexadecimal digit for a value `< 16`. -/
def hexDigit (n : Nat) : Char :=
  if n < 10 then Char.ofNat (48 + n) else Char.ofNat (55 + n)

/-- Python `f"{n:08X}"` for `n < 2^32`: big-endian, 8 uppercase hex digits. -/
def toHex8 (n : Nat) : String :=
  String.mk ((List.range 8).map (fun i => hexDigit (n / 16 ^ (7 - i) % 16)))

/-- `f"{crc32(data) & 0xFFFFFFFF:08X}"`. -/
def crc32_str (data : List Nat) : String := toHex8 (crc32 data)

/-- `c` is an uppercase hexadecimal character (`0`-`9` or `A`-`F`). -/
def isUpperHexDigit (c : Char) : Bool :=
  (48 ≤ c.toNat && c.toNat ≤ 57) || (65 ≤ c.toNat && c.toNat ≤ 70)

/-! ## Checksum utility

`NESGamePlugin._compute_crc32` (max 64 MiB) and
`RomManager._compute_crc32` (max 1 GiB) are the same function modulo the
default `max_size`; both are modelled by `compute_crc32` with the limit a
parameter.  `statSize = none` models `path.stat()` raising `OSError`;
`content = none` models a failing read; both are caught by the
`except OSError` and produce the empty-string result. -/

def compute_crc32 (statSize : Option Nat) (content : Option (List Nat))
    (maxSize : Nat) : String :=
  match statSize with
  | none => ""
  | some sz =>
    if sz > maxSize then ""
    else
      match content with
      | none => ""
      | some data => crc32_str data

/-! ### Facts about the CRC utility -/

theorem hexDigit_upper : ∀ m < 16, isUpperHexDigit (hexDigit m) = true := by
  decide

theorem toHex8_length (n : Nat) : (toHex8 n).length = 8 := by
  simp [toHex8, String.length]

theorem toHex8_upper (n : Nat) : ∀ c ∈ (toHex8 n).data, isUpperHexDigit c = true := by
  intro c hc
  simp only [toHex8, String.mk, List.mem_map, List.mem_range] at hc
  obtain ⟨i, _, rfl⟩ := hc
  exact hexDigit_upper _ (Nat.mod_lt _ (by norm_num))

theorem toHex8_ne_empty (n : Nat) : toHex8 n ≠ "" := by
  intro h
  have := toHex8_length n
  rw [h] at this
  simp [String.length] at this

/-- Claim C3 (amended): for every stat result, file content and size limit,
the CRC32 utility never fails past its boundary: it returns the **empty
string** (the code's sentinel, not the string `"unknown"`) when the source
exceeds the size limit or when the stat/read fails, and otherwise returns
exactly 8 uppercase hexadecimal characters — the big-endian hex rendering
of the unsigned 32-bit standard CRC-32 (IEEE 802.3) of the file's bytes. -/
theorem crc32_utility_boundary :
    (∀ content maxSize, compute_crc32 none content maxSize = "") ∧
    (∀ sz content maxSize, maxSize < sz → compute_crc32 (some sz) content maxSize = "") ∧
    (∀ sz maxSize, sz ≤ maxSize → compute_crc32 (some sz) none maxSize = "") ∧
    (∀ sz data maxSize, sz ≤ maxSize →
      compute_crc32 (some sz) (some data) maxSize = crc32_str data ∧
      (compute_crc32 (some sz) (some data) maxSize).length = 8 ∧
      ∀ c ∈ (compute_crc32 (some sz) (some data) maxSize).data,
        isUpperHexDigit c = true) := by
  refine ⟨fun _ _ => rfl, fun sz c m h => ?_, fun sz m h => ?_, fun sz d m h => ?_⟩
  · simp [compute_crc32, h]
  · simp [compute_crc32, Nat.not_lt.mpr h]
  · have hres : compute_crc32 (some sz) (some d) m = crc32_str d := by
      simp [compute_crc32, Nat.not_lt.mpr h]
    refine ⟨hres, ?_, ?_⟩
    · rw [hres]; exact toHex8_length _
    · rw [hres]; exact toHex8_upper _

/-- Claim C3 counterexample: on a source exceeding the size limit the
utility returns the empty string, not the string `"unknown"` that the
claim demands. -/
theorem crc32_utility_unknown_counterexample :
    compute_crc32 (some 5) (some [0, 0, 0, 0, 0]) 4 = "" ∧
    compute_crc32 (some 5) (some [0, 0, 0, 0, 0]) 4 ≠ "unknown" := by
  constructor
  · rfl
  · decide

/-- Witness for `crc32_utility_boundary` at concrete inputs. -/
theorem crc32_utility_boundary_witness :
    compute_crc32 (some 1) (some [0]) 64 = crc32_str [0] ∧
    compute_crc32 (some 9) (some [1, 2]) 4 = "" := by
  exact ⟨(crc32_utility_boundary.2.2.2 1 [0] 64 (by decide)).1,
    crc32_utility_boundary.2.1 9 (some [1, 2]) 4 (by decide)⟩

/-! ## NES header parser (`src/app/plugins/nes/parsers.py`)

`parse_nes_header` reads the first 16 bytes of the file.  We model the
file's bytes directly (`content : List Nat`); the `OSError` branch
returns `None` and only widens the `none` cases, the claims quantify over
readable files. -/

/-- Parsed NES ROM header data (`NESHeaderInfo` dataclass). -/
structure NESHeaderInfo where
  prg_rom_size : Nat := 0
  chr_rom_size : Nat := 0
  mapper : Nat := 0
  mirroring : String := ""
  has_battery : Bool := false
  has_trainer : Bool := false
  is_nes2 : Bool := false
  tv_system : String := ""
  rom_size : Nat := 0
deriving DecidableEq

/-- The iNES magic `b"NES\x1a"` = `4E 45 53 1A`. -/
def inesMagic : List Nat := [0x4E, 0x45, 0x53, 0x1A]

/-- `parse_nes_header(path)`: validate the magic, decode the flags. -/
def parse_nes_header (content : List Nat) : Option NESHeaderInfo :=
  let header := content.take 16
  if header.length < 16 then none
  else if header.take 4 ≠ inesMagic then none
  else
    let flags6 := header.getD 6 0
    let flags7 := header.getD 7 0
    let flags9 := header.getD 9 0
    some
      { prg_rom_size := header.getD 4 0 * 16384
        chr_rom_size := header.getD 5 0 * 8192
        mapper := (flags6 >>> 4) ||| (flags7 &&& 0xF0)
        mirroring :=
          if flags6 &&& 0x08 ≠ 0 then "four-screen"
          else if flags6 &&& 0x01 ≠ 0 then "vertical"
          else "horizontal"
        has_battery := (flags6 &&& 0x02) != 0
        has_trainer := (flags6 &&& 0x04) != 0
        is_nes2 := (flags7 &&& 0x0C) == 0x08
        tv_system := if flags9 &&& 0x01 = 1 then "PAL" else "NTSC"
        rom_size := content.length }

theorem getD_take (l : List Nat) : ∀ n i, i < n → (l.take n).getD i 0 = l.getD i 0 := by
  induction l with
  | nil => simp
  | cons a l ih =>
    intro n i h
    cases n with
    | zero => omega
    | succ n =>
      cases i with
      | zero => simp
      | succ i => simpa using ih n i (by omega)

/-- Claim C5: for every readable file of at least 16 bytes that begins
with the 4-byte magic `4E 45 53 1A`, the NES parser returns a header
record whose `mapper` equals `(flags6 >>> 4) ||| (flags7 &&& 0xF0)`,
whose `mirroring` is `"four-screen"` whenever bit 3 of flags6 is set
(overriding the vertical/horizontal bit 0), and whose NES-2.0 flag is set
exactly when bits 2-3 of flags7 equal binary 10; a file without the magic
yields "not recognized" (`none`), never an exception. -/
theorem nes_parser_spec :
    (∀ content : List Nat, 16 ≤ content.length → content.take 4 = inesMagic →
      ∃ info, parse_nes_header content = some info ∧
        info.mapper = ((content.getD 6 0) >>> 4) ||| ((content.getD 7 0) &&& 0xF0) ∧
        ((content.getD 6 0) &&& 0x08 ≠ 0 → info.mirroring = "four-screen") ∧
        ((content.getD 6 0) &&& 0x08 = 0 → (content.getD 6 0) &&& 0x01 ≠ 0 →
          info.mirroring = "vertical") ∧
        ((content.getD 6 0) &&& 0x08 = 0 → (content.getD 6 0) &&& 0x01 = 0 →
          info.mirroring = "horizontal") ∧
        (info.is_nes2 = true ↔ (content.getD 7 0) &&& 0x0C = 0x08)) ∧
    (∀ content : List Nat, content.take 4 ≠ inesMagic →
      parse_nes_header content = none) := by
  constructor
  · intro content hlen hmagic
    have hl : (content.take 16).length = 16 := by
      simp [List.length_take, Nat.min_def]
      omega
    have hm : (content.take 16).take 4 = content.take 4 := by
      rw [List.take_take]; norm_num
    have h6 : (content.take 16).getD 6 0 = content.getD 6 0 := getD_take _ 16 6 (by omega)
    have h7 : (content.take 16).getD 7 0 = content.getD 7 0 := getD_take _ 16 7 (by omega)
    have heq : parse_nes_header content = some
        { prg_rom_size := (content.take 16).getD 4 0 * 16384
          chr_rom_size := (content.take 16).getD 5 0 * 8192
          mapper := (((content.take 16).getD 6 0) >>> 4) |||
            (((content.take 16).getD 7 0) &&& 0xF0)
          mirroring :=
            if (content.take 16).getD 6 0 &&& 0x08 ≠ 0 then "four-screen"
            else if (content.take 16).getD 6 0 &&& 0x01 ≠ 0 then "vertical"
            else "horizontal"
          has_battery := ((content.take 16).getD 6 0 &&& 0x02) != 0
          has_trainer := ((content.take 16).getD 6 0 &&& 0x04) != 0
          is_nes2 := ((content.take 16).getD 7 0 &&& 0x0C) == 0x08
          tv_system := if (content.take 16).getD 9 0 &&& 0x01 = 1 then "PAL" else "NTSC"
          rom_size := content.length } := by
      simp only [parse_nes_header]
      rw [if_neg (by rw [hl]; omega), if_neg (by rw [hm, hmagic]; simp)]
    refine ⟨_, heq, ?_, ?_, ?_, ?_, ?_⟩
    · simp [h6, h7]
    · intro h4
      simp only [h6]
      rw [if_pos h4]
    · intro h4 h0
      simp only [h6]
      rw [if_neg (not_ne_iff.mpr h4), if_pos h0]
    · intro h4 h0
      simp only [h6]
      rw [if_neg (not_ne_iff.mpr h4), if_neg (not_ne_iff.mpr h0)]
    · simp [h7]
  · intro content hmagic
    rw [parse_nes_header]
    by_cases hlen : (content.take 16).length < 16
    · rw [if_pos hlen]
    · rw [if_neg hlen, if_pos (by rw [List.take_take]; norm_num; simpa using hmagic)]

/-- Witness for `nes_parser_spec` on a concrete 16-byte iNES header. -/
theorem nes_parser_spec_witness :
    ∃ info, parse_nes_header
        [0x4E, 0x45, 0x53, 0x1A, 1, 1, 0x49, 0x58, 0, 1, 0, 0, 0, 0, 0, 0] = some info ∧
      info.mapper = ((0x49 : Nat) >>> 4) ||| ((0x58 : Nat) &&& 0xF0) ∧
      info.mirroring = "four-screen" ∧
      info.is_nes2 = true := by
  obtain ⟨info, h1, h2, h3, _, _, h6⟩ :=
    nes_parser_spec.1 [0x4E, 0x45, 0x53, 0x1A, 1, 1, 0x49, 0x58, 0, 1, 0, 0, 0, 0, 0, 0]
      (by decide) (by decide)
  exact ⟨info, h1, by simpa using h2, h3 (by decide), h6.mpr (by decide)⟩

/-! ## Python string helpers

`bytes.decode("ascii", errors="replace")` maps a byte `< 0x80` to the
character of the same code point and every byte `≥ 0x80` to the Unicode
replacement character U+FFFD.  `str.strip()` removes leading and trailing
whitespace; `str.strip("\x00")` removes leading and trailing NULs. -/

/-- `bytes.decode("ascii", errors="replace")`. -/
def decodeAsciiReplace (bs : List Nat) : List Char :=
  bs.map (fun b => if b < 128 then Char.ofNat b else Char.ofNat 0xFFFD)

/-- Python `str.isspace` for the characters that can arise from decoding
a byte (code points `< 0x80` or U+FFFD). -/
def pyWhitespace (c : Char) : Bool :=
  c == ' ' || c == '\t' || c == '\n' || c == '\x0b' || c == '\x0c' || c == '\r' ||
    c == '\x1c' || c == '\x1d' || c == '\x1e' || c == '\x1f'

/-- Remove characters satisfying `p` from both ends of a list. -/
def stripWhile (p : Char → Bool) (cs : List Char) : List Char :=
  ((cs.dropWhile p).reverse.dropWhile p).reverse

/-- Python `str.strip()`. -/
def pyStrip (cs : List Char) : List Char := stripWhile pyWhitespace cs

/-- Python `str.strip(c0)` for a single strip character. -/
def pyStripChar (c0 : Char) (cs : List Char) : List Char :=
  stripWhile (fun c => c == c0) cs

/-! ## GBA header parser (`src/app/plugins/gba/parsers.py`) -/

/-- Parsed GBA ROM header data (`GBAHeaderInfo` dataclass). -/
structure GBAHeaderInfo where
  game_title : String := ""
  game_code : String := ""
  maker_code : String := ""
  software_version : Nat := 0
  valid_checksum : Bool := false
deriving DecidableEq

/-- `parse_gba_header(path)`.  Reads `0xC0` bytes; too-small files give
`none`; a wrong fixed byte `0xB2` and a wrong checksum byte are logged
but not fatal.  The complement check sums `header[0xA0:0xBD]`. -/
def parse_gba_header (content : List Nat) : Option GBAHeaderInfo :=
  let header := content.take 0xC0
  if header.length < 0xC0 then none
  else
    let chk_sum := ((List.range 0x1D).map (fun i => header.getD (0xA0 + i) 0)).sum
    let expected := (256 - (chk_sum + 0x19) % 256) % 256
    some
      { game_title := String.mk (pyStrip
          (decodeAsciiReplace (((header.drop 0xA0).take 12).takeWhile (fun b => b ≠ 0))))
        game_code := String.mk (pyStrip (pyStripChar (Char.ofNat 0)
          (decodeAsciiReplace ((header.drop 0xAC).take 4))))
        maker_code := String.mk (pyStrip (pyStripChar (Char.ofNat 0)
          (decodeAsciiReplace ((header.drop 0xB0).take 2))))
        software_version := header.getD 0xBC 0
        valid_checksum := header.getD 0xBD 0 == expected }

/-- Claim C7: for every readable file of at least `0xC0` bytes, the GBA
parser returns a header record — a wrong checksum byte is not fatal — and
the record's `valid_checksum` field is true exactly when the byte at
offset `0xBD` equals `-(sum of bytes 0xA0..0xBC + 0x19) mod 256`. -/
theorem gba_parser_not_fatal (content : List Nat) (hlen : 0xC0 ≤ content.length) :
    ∃ info, parse_gba_header content = some info ∧
      (info.valid_checksum = true ↔
        content.getD 0xBD 0 =
          (256 - (((List.range 0x1D).map (fun i => content.getD (0xA0 + i) 0)).sum
            + 0x19) % 256) % 256) := by
  have hl : (content.take 0xC0).length = 0xC0 := by
    simp [List.length_take, Nat.min_def]
    omega
  have hD : ∀ i, i < 0xC0 → (content.take 0xC0).getD i 0 = content.getD i 0 :=
    fun i h => getD_take _ 0xC0 i h
  have hsum : ((List.range 0x1D).map (fun i => (content.take 0xC0).getD (0xA0 + i) 0)).sum
      = ((List.range 0x1D).map (fun i => content.getD (0xA0 + i) 0)).sum := by
    congr 1
    refine List.map_congr_left ?_
    intro i hi
    simp only [List.mem_range] at hi
    exact hD _ (by omega)
  have heq : parse_gba_header content = some
      { game_title := String.mk (pyStrip (decodeAsciiReplace
          ((((content.take 0xC0).drop 0xA0).take 12).takeWhile (fun b => b ≠ 0))))
        game_code := String.mk (pyStrip (pyStripChar (Char.ofNat 0)
          (decodeAsciiReplace (((content.take 0xC0).drop 0xAC).take 4))))
        maker_code := String.mk (pyStrip (pyStripChar (Char.ofNat 0)
          (decodeAsciiReplace (((content.take 0xC0).drop 0xB0).take 2))))
        software_version := (content.take 0xC0).getD 0xBC 0
        valid_checksum := (content.take 0xC0).getD 0xBD 0 ==
          (256 - (((List.range 0x1D).map
            (fun i => (content.take 0xC0).getD (0xA0 + i) 0)).sum + 0x19) % 256) % 256 } := by
    simp only [parse_gba_header]
    rw [if_neg (by rw [hl]; omega)]
  refine ⟨_, heq, ?_⟩
  simp only [hsum, hD 0xBD (by omega)]
  exact beq_iff_eq

/-- Witness for `gba_parser_not_fatal` on a concrete all-zero 0xC0-byte
file: the checksum byte 0 differs from the expected value 0xE7, yet a
record is returned. -/
theorem gba_parser_not_fatal_witness :
    ∃ info, parse_gba_header (List.replicate 0xC0 0) = some info ∧
      (info.valid_checksum = true ↔
        (List.replicate 0xC0 (0 : Nat)).getD 0xBD 0 =
          (256 - (((List.range 0x1D).map
            (fun i => (List.replicate 0xC0 (0 : Nat)).getD (0xA0 + i) 0)).sum
            + 0x19) % 256) % 256) :=
  gba_parser_not_fatal (List.replicate 0xC0 0) (by simp)

/-! ## Switch title-ID classification (`src/app/plugins/switch/parsers.py`) -/

/-- Hexadecimal value of one character, as accepted by Python `int(_, 16)`. -/
def hexVal (c : Char) : Option Nat :=
  if 48 ≤ c.toNat ∧ c.toNat ≤ 57 then some (c.toNat - 48)
  else if 97 ≤ c.toNat ∧ c.toNat ≤ 102 then some (c.toNat - 87)
  else if 65 ≤ c.toNat ∧ c.toNat ≤ 70 then some (c.toNat - 55)
  else none

/-- Python `int(s, 16)` on a non-empty all-hex-digit string; `none` models
the `ValueError` raised on a non-hex character. -/
def parseHexChars (cs : List Char) : Option Nat :=
  cs.foldl (fun acc c => acc.bind (fun a => (hexVal c).map (fun v => a * 16 + v))) (some 0)

/-- `classify_title_id(title_id)`: classify by the value of the last three
hex digits (`suffix = int(title_id[-3:], 16)`). -/
def classify_title_id (title_id : String) : Option String :=
  if title_id.length < 4 then some "unknown"
  else
    (parseHexChars (title_id.data.drop (title_id.length - 3))).map
      (fun sfx =>
        if sfx = 0x000 then "base"
        else if sfx = 0x800 then "update"
        else if 1 ≤ sfx ∧ sfx ≤ 0x7FF then "dlc"
        else "unknown")

/-- Claim C8: for every 16-hex-character title ID, classification returns
`"base"` when the last three hex digits are 000, `"update"` when they are
800, `"dlc"` when their value lies in 001..7FF, and `"unknown"` for any
other value; the result is a pure function of the ID string (no file
access occurs in the embedding). -/
theorem classify_title_id_spec (tid : String) (h16 : tid.length = 16) (v : Nat)
    (hv : parseHexChars (tid.data.drop 13) = some v) :
    classify_title_id tid =
      some (if v = 0x000 then "base"
        else if v = 0x800 then "update"
        else if 1 ≤ v ∧ v ≤ 0x7FF then "dlc"
        else "unknown") := by
  simp only [classify_title_id, h16]
  rw [if_neg (by omega)]
  norm_num
  exact ⟨v, hv.symm.trans rfl ▸ rfl, rfl⟩

/-- Witness for `classify_title_id_spec`: the spec's four sample IDs. -/
theorem classify_title_id_spec_witness :
    classify_title_id "0100ABCDEF123000" = some "base" ∧
    classify_title_id "0100ABCDEF123800" = some "update" ∧
    classify_title_id "0100ABCDEF1230AB" = some "dlc" ∧
    classify_title_id "0100ABCDEF123900" = some "unknown" := by
  refine ⟨?_, ?_, ?_, ?_⟩
  · rw [classify_title_id_spec "0100ABCDEF123000" (by decide) 0x000 (by decide)]
    decide
  · rw [classify_title_id_spec "0100ABCDEF123800" (by decide) 0x800 (by decide)]
    decide
  · rw [classify_title_id_spec "0100ABCDEF1230AB" (by decide) 0x0AB (by decide)]
    decide
  · rw [classify_title_id_spec "0100ABCDEF123900" (by decide) 0x900 (by decide)]
    decide

/-! ## SNES header parser (`src/app/plugins/snes/parsers.py`) -/

/-- Parsed SNES ROM header data (`SNESHeaderInfo` dataclass). -/
structure SNESHeaderInfo where
  game_title : String := ""
  game_code : String := ""
  maker_code : String := ""
  country_code : Nat := 0
  licensee_code : Nat := 0
  rom_version : Nat := 0
  rom_size : Nat := 0
  ram_size : Nat := 0
  has_battery : Bool := false
  mapping_mode : String := ""
  has_copier_header : Bool := false
deriving DecidableEq

/-- `int.from_bytes(data[base+0x2E:base+0x30], "little")` — the header's
16-bit checksum field. -/
def snesChecksum (data : List Nat) (base : Nat) : Nat :=
  data.getD (base + 0x2E) 0 + 256 * data.getD (base + 0x2F) 0

/-- `int.from_bytes(data[base+0x2C:base+0x2E], "little")` — the header's
16-bit checksum-complement field. -/
def snesChecksumComplement (data : List Nat) (base : Nat) : Nat :=
  data.getD (base + 0x2C) 0 + 256 * data.getD (base + 0x2D) 0

/-- `_try_parse_at(data, base)`: try to parse a SNES internal header at
the given offset; the gate is checksum XOR complement = `0xFFFF`, then
the decoded stripped title must be non-blank. -/
def try_parse_at (data : List Nat) (base : Nat) : Option SNESHeaderInfo :=
  if base + 0x30 > data.length then none
  else
    let map_mode := data.getD (base + 0x25) 0
    let rom_type := data.getD (base + 0x26) 0
    let rom_size_byte := data.getD (base + 0x27) 0
    let ram_size_byte := data.getD (base + 0x28) 0
    let country_code := data.getD (base + 0x29) 0
    let licensee_code := data.getD (base + 0x2A) 0
    let version := data.getD (base + 0x2B) 0
    if (snesChecksum data base ^^^ snesChecksumComplement data base) ≠ 0xFFFF then none
    else
      let game_title := pyStrip (pyStripChar (Char.ofNat 0)
        (decodeAsciiReplace ((data.drop (base + 0x10)).take 0x15)))
      if game_title = [] ∨ game_title.all
          (fun c => c == Char.ofNat 0 || c == Char.ofNat 0xFF || c == ' ') then none
      else
        some
          { game_title := String.mk game_title
            game_code :=
              if licensee_code = 0x33 then
                String.mk (pyStrip (pyStripChar (Char.ofNat 0)
                  (decodeAsciiReplace ((data.drop (base + 0x02)).take 4))))
              else ""
            maker_code :=
              if licensee_code = 0x33 then
                String.mk (pyStrip (pyStripChar (Char.ofNat 0)
                  (decodeAsciiReplace ((data.drop base).take 2))))
              else ""
            country_code := country_code
            licensee_code := licensee_code
            rom_version := version
            rom_size := if rom_size_byte < 16 then (1 <<< rom_size_byte) * 1024 else 0
            ram_size :=
              if 0 < ram_size_byte ∧ ram_size_byte < 16 then (1 <<< ram_size_byte) * 1024
              else 0
            has_battery := (rom_type &&& 0x02) != 0
            mapping_mode := if map_mode &&& 0x01 ≠ 0 then "HiROM" else "LoROM"
            has_copier_header := false }

/-- 512-byte copier-header detection: `file_size % 1024 == 512`. -/
def snesHasCopier (content : List Nat) : Bool := content.length % 1024 == 512

/-- The extra offset applied to both candidate bases when a copier header
is detected. -/
def snesOffset (content : List Nat) : Nat := if snesHasCopier content then 0x200 else 0

/-- `parse_snes_header(path)`: read up to `0x10200` bytes, require at
least `0x8000`, then try the LoROM base `0x7FB0` and the HiROM base
`0xFFB0`, each shifted by the copier offset; the first candidate offset
that parses wins. -/
def parse_snes_header (content : List Nat) : Option SNESHeaderInfo :=
  let data := content.take 0x10200
  if data.length < 0x8000 then none
  else
    match try_parse_at data (0x7FB0 + snesOffset content) with
    | some r => some { r with has_copier_header := snesHasCopier content }
    | none =>
      match try_parse_at data (0xFFB0 + snesOffset content) with
      | some r => some { r with has_copier_header := snesHasCopier content }
      | none => none

theorem try_parse_at_some {data : List Nat} {base : Nat} {r : SNESHeaderInfo}
    (h : try_parse_at data base = some r) :
    base + 0x30 ≤ data.length ∧
    (snesChecksum data base ^^^ snesChecksumComplement data base) = 0xFFFF ∧
    (r.mapping_mode = "HiROM" ↔ data.getD (base + 0x25) 0 &&& 0x01 ≠ 0) := by
  simp only [try_parse_at] at h
  by_cases hlen : base + 0x30 > data.length
  · rw [if_pos hlen] at h
    exact absurd h (by simp)
  · rw [if_neg hlen] at h
    by_cases hgate : (snesChecksum data base ^^^ snesChecksumComplement data base) ≠ 0xFFFF
    · rw [if_pos hgate] at h
      exact absurd h (by simp)
    · rw [if_neg hgate] at h
      by_cases hblank : (pyStrip (pyStripChar (Char.ofNat 0)
            (decodeAsciiReplace ((data.drop (base + 0x10)).take 0x15))) = [] ∨
          (pyStrip (pyStripChar (Char.ofNat 0)
            (decodeAsciiReplace ((data.drop (base + 0x10)).take 0x15)))).all
            (fun c => c == Char.ofNat 0 || c == Char.ofNat 0xFF || c == ' '))
      · rw [if_pos hblank] at h
        exact absurd h (by simp)
      · rw [if_neg hblank] at h
        refine ⟨by omega, not_not.mp hgate, ?_⟩
        obtain rfl : _ = r := Option.some.inj h
        by_cases hbit : data.getD (base + 0x25) 0 &&& 0x01 ≠ 0
        · show (if data.getD (base + 0x25) 0 &&& 0x01 ≠ 0 then "HiROM" else "LoROM") = "HiROM" ↔ _
          rw [if_pos hbit]
          exact iff_of_true rfl hbit
        · show (if data.getD (base + 0x25) 0 &&& 0x01 ≠ 0 then "HiROM" else "LoROM") = "HiROM" ↔ _
          rw [if_neg hbit]
          exact iff_of_false (by decide) hbit

/-- Claim C4 (amended): the SNES parser tries the LoROM base offset
(`0x7FB0`) and then the HiROM base offset (`0xFFB0`), each shifted by
`0x200` exactly when the file size mod 1024 equals 512, accepting a
candidate offset only if its 16-bit checksum XOR its 16-bit
checksum-complement equals `0xFFFF`; for any buffer whose candidate fails
at the LoROM offset but parses at the HiROM offset, the parser returns
the record parsed at the HiROM offset — whose `mapping_mode` is
`"HiROM"` exactly when bit 0 of the map-mode byte at that offset is set,
not unconditionally. -/
theorem snes_hirom_selection (content : List Nat) (r : SNESHeaderInfo)
    (h1 : try_parse_at (content.take 0x10200) (0x7FB0 + snesOffset content) = none)
    (h2 : try_parse_at (content.take 0x10200) (0xFFB0 + snesOffset content) = some r) :
    parse_snes_header content = some { r with has_copier_header := snesHasCopier content } ∧
    (snesChecksum (content.take 0x10200) (0xFFB0 + snesOffset content) ^^^
      snesChecksumComplement (content.take 0x10200) (0xFFB0 + snesOffset content)) = 0xFFFF ∧
    (r.mapping_mode = "HiROM" ↔
      (content.take 0x10200).getD (0xFFB0 + snesOffset content + 0x25) 0 &&& 0x01 ≠ 0) := by
  obtain ⟨hlen, hgate, hbit⟩ := try_parse_at_some h2
  refine ⟨?_, hgate, hbit⟩
  simp only [parse_snes_header]
  rw [if_neg (by omega), h1, h2]

/-! ### A concrete buffer that parses at the HiROM offset with an even
map-mode byte.

`snesCex` is 0x10000 bytes: all zero except a title byte `A` at `0xFFC0`
and a checksum complement `FF FF` at `0xFFDC`.  At the LoROM offset the
checksum gate fails (0 XOR 0); at the HiROM offset it passes
(0 XOR 0xFFFF) with a non-blank title, and the map-mode byte `0x00` has
bit 0 clear. -/

/-- The last 64 bytes of `snesCex` (offsets 0xFFC0 - 0xFFFF). -/
def snesCexTail : List Nat := 65 :: List.replicate 27 0 ++ (0xFF :: 0xFF :: List.replicate 34 0)

def snesCex : List Nat := List.replicate 0xFFC0 0 ++ snesCexTail

/-- The record `_try_parse_at` yields at the HiROM offset of `snesCex`. -/
def snesCexRec : SNESHeaderInfo :=
  { game_title := "A", game_code := "", maker_code := "", country_code := 0,
    licensee_code := 0, rom_version := 0, rom_size := 1024, ram_size := 0,
    has_battery := false, mapping_mode := "LoROM", has_copier_header := false }

theorem snesCex_length : snesCex.length = 0x10000 := by
  rw [snesCex, List.length_append, List.length_replicate, snesCexTail, List.length_append,
    List.length_cons, List.length_replicate, List.length_cons, List.length_cons,
    List.length_replicate]

theorem snesCex_take : snesCex.take 0x10200 = snesCex :=
  List.take_of_length_le (by rw [snesCex_length]; norm_num)

theorem getD_drop (l : List Nat) (m k : Nat) :
    (l.drop m).getD k 0 = l.getD (m + k) 0 := by
  simp [List.getD_eq_getElem?_getD, List.getElem?_drop]

/-- Reading a byte at `base + k` through a 0x30-byte window cut out at
`base`. -/
theorem getD_window {d : List Nat} {base : Nat} {w : List Nat}
    (hw : (d.drop base).take 0x30 = w) (k : Nat) (hk : k < 0x30) :
    d.getD (base + k) 0 = w.getD k 0 := by
  rw [← hw, getD_take _ 0x30 k hk, getD_drop]

theorem snesChecksum_window {d : List Nat} {base : Nat} {w : List Nat}
    (hw : (d.drop base).take 0x30 = w) :
    snesChecksum d base = snesChecksum w 0 := by
  unfold snesChecksum
  rw [getD_window hw 0x2E (by norm_num), getD_window hw 0x2F (by norm_num),
    Nat.zero_add, Nat.zero_add]

theorem snesChecksumComplement_window {d : List Nat} {base : Nat} {w : List Nat}
    (hw : (d.drop base).take 0x30 = w) :
    snesChecksumComplement d base = snesChecksumComplement w 0 := by
  unfold snesChecksumComplement
  rw [getD_window hw 0x2C (by norm_num), getD_window hw 0x2D (by norm_num),
    Nat.zero_add, Nat.zero_add]

theorem take_window_slice {d : List Nat} {base : Nat} {w : List Nat}
    (hw : (d.drop base).take 0x30 = w) (a n : Nat) (h : a + n ≤ 0x30) :
    (d.drop (base + a)).take n = (w.drop a).take n := by
  rw [← hw, List.drop_take, List.take_take, List.drop_drop]
  congr 1
  omega

theorem window_length {d : List Nat} {base : Nat} {w : List Nat}
    (hw : (d.drop base).take 0x30 = w) (hlen : base + 0x30 ≤ d.length) :
    w.length = 0x30 := by
  rw [← hw, List.length_take, List.length_drop]
  omega

/-- `_try_parse_at` only looks at the 0x30 bytes starting at `base`, so
it agrees with parsing the extracted window at offset 0. -/
theorem try_parse_at_window (d : List Nat) (base : Nat) (w : List Nat)
    (hlen : base + 0x30 ≤ d.length) (hw : (d.drop base).take 0x30 = w) :
    try_parse_at d base = try_parse_at w 0 := by
  have hwlen := window_length hw hlen
  have h25 := getD_window hw 0x25 (by norm_num)
  have h26 := getD_window hw 0x26 (by norm_num)
  have h27 := getD_window hw 0x27 (by norm_num)
  have h28 := getD_window hw 0x28 (by norm_num)
  have h29 := getD_window hw 0x29 (by norm_num)
  have h2A := getD_window hw 0x2A (by norm_num)
  have h2B := getD_window hw 0x2B (by norm_num)
  have hck := snesChecksum_window hw
  have hcc := snesChecksumComplement_window hw
  have htitle := take_window_slice hw 0x10 0x15 (by norm_num)
  have hcode := take_window_slice hw 0x02 4 (by norm_num)
  have hmaker := take_window_slice hw 0 2 (by norm_num)
  rw [Nat.add_zero] at hmaker
  simp only [try_parse_at, Nat.zero_add]
  rw [if_neg (show ¬ base + 0x30 > d.length by omega),
    if_neg (show ¬ 0x30 > w.length by omega)]
  rw [hck, hcc, h25, h26, h27, h28, h29, h2A, h2B, htitle, hcode, hmaker]

/-- The 0x30-byte window of `snesCex` at the LoROM base: all zero. -/
theorem snesCex_win_lo : (snesCex.drop 0x7FB0).take 0x30 = List.replicate 0x30 0 := by
  rw [snesCex, List.drop_append_eq_append_drop, List.length_replicate, List.drop_replicate,
    List.take_append_eq_append_take, List.length_replicate, List.take_replicate]
  norm_num

/-- The 0x30-byte window of `snesCex` at the HiROM base: 16 zero bytes
followed by the first 0x20 bytes of the tail. -/
theorem snesCex_win_hi :
    (snesCex.drop 0xFFB0).take 0x30 = List.replicate 0x10 0 ++ snesCexTail.take 0x20 := by
  rw [snesCex, List.drop_append_eq_append_drop, List.length_replicate, List.drop_replicate,
    List.take_append_eq_append_take, List.length_replicate, List.take_replicate]
  norm_num

theorem snesOffset_eq_zero {c : List Nat} (h : c.length % 1024 ≠ 512) : snesOffset c = 0 := by
  unfold snesOffset snesHasCopier
  rw [if_neg (by simpa using h)]

theorem snesCex_offset : snesOffset snesCex = 0 :=
  snesOffset_eq_zero (by rw [snesCex_length]; norm_num)

theorem snesHasCopier_eq (c : List Nat) : snesHasCopier c = (c.length % 1024 == 512) := rfl

theorem snesCex_copier : snesHasCopier snesCex = false := by
  rw [snesHasCopier_eq, snesCex_length]
  decide

theorem snesCex_lorom_gate :
    (snesChecksum snesCex 0x7FB0 ^^^ snesChecksumComplement snesCex 0x7FB0) ≠ 0xFFFF := by
  rw [snesChecksum_window snesCex_win_lo, snesChecksumComplement_window snesCex_win_lo]
  decide

theorem snesCex_hirom_gate :
    (snesChecksum snesCex 0xFFB0 ^^^ snesChecksumComplement snesCex 0xFFB0) = 0xFFFF := by
  rw [snesChecksum_window snesCex_win_hi, snesChecksumComplement_window snesCex_win_hi]
  decide

theorem snesCex_lorom : try_parse_at snesCex 0x7FB0 = none :=
  (try_parse_at_window snesCex 0x7FB0 (List.replicate 0x30 0)
    (by rw [snesCex_length]; norm_num) snesCex_win_lo).trans (by decide)

theorem snesCex_hirom : try_parse_at snesCex 0xFFB0 = some snesCexRec :=
  (try_parse_at_window snesCex 0xFFB0 (List.replicate 0x10 0 ++ snesCexTail.take 0x20)
    (by rw [snesCex_length]; norm_num) snesCex_win_hi).trans (by decide)

/-- When the LoROM candidate fails and the HiROM candidate parses, the
parser returns the HiROM record with the copier flag filled in. -/
theorem parse_snes_header_hirom (content : List Nat) (r : SNESHeaderInfo)
    (hlen : 0x8000 ≤ (content.take 0x10200).length)
    (h1 : try_parse_at (content.take 0x10200) (0x7FB0 + snesOffset content) = none)
    (h2 : try_parse_at (content.take 0x10200) (0xFFB0 + snesOffset content) = some r) :
    parse_snes_header content = some { r with has_copier_header := snesHasCopier content } := by
  simp only [parse_snes_header]
  rw [if_neg (by omega), h1, h2]

theorem snesCex_parse : parse_snes_header snesCex = some snesCexRec := by
  have h := parse_snes_header_hirom snesCex snesCexRec
    (by rw [snesCex_take, snesCex_length]; norm_num)
    (by rw [snesCex_take, snesCex_offset, Nat.add_zero]; exact snesCex_lorom)
    (by rw [snesCex_take, snesCex_offset, Nat.add_zero]; exact snesCex_hirom)
  rw [snesCex_copier] at h
  exact h

/-- Claim C4 counterexample: `snesCex` fails the checksum gate at the
LoROM offset and passes it at the HiROM offset (copier offset 0), yet the
parser returns a record whose `mapping_mode` is `"LoROM"`, not `"HiROM"`,
because the map-mode byte at the HiROM offset has bit 0 clear. -/
theorem snes_hirom_counterexample :
    (snesChecksum snesCex 0x7FB0 ^^^ snesChecksumComplement snesCex 0x7FB0) ≠ 0xFFFF ∧
    (snesChecksum snesCex 0xFFB0 ^^^ snesChecksumComplement snesCex 0xFFB0) = 0xFFFF ∧
    snesOffset snesCex = 0 ∧
    (parse_snes_header snesCex).map SNESHeaderInfo.mapping_mode = some "LoROM" ∧
    ¬(parse_snes_header snesCex).map SNESHeaderInfo.mapping_mode = some "HiROM" := by
  refine ⟨snesCex_lorom_gate, snesCex_hirom_gate, snesCex_offset, ?_, ?_⟩
  · rw [snesCex_parse]
    rfl
  · rw [snesCex_parse]
    decide

/-- Witness for `snes_hirom_selection` at the concrete buffer `snesCex`. -/
theorem snes_hirom_selection_witness :
    parse_snes_header snesCex
      = some { snesCexRec with has_copier_header := snesHasCopier snesCex } ∧
    (snesChecksum (snesCex.take 0x10200) (0xFFB0 + snesOffset snesCex) ^^^
      snesChecksumComplement (snesCex.take 0x10200) (0xFFB0 + snesOffset snesCex)) = 0xFFFF ∧
    (snesCexRec.mapping_mode = "HiROM" ↔
      (snesCex.take 0x10200).getD (0xFFB0 + snesOffset snesCex + 0x25) 0 &&& 0x01 ≠ 0) :=
  snes_hirom_selection snesCex snesCexRec
    (by rw [snesCex_take, snesCex_offset, Nat.add_zero]; exact snesCex_lorom)
    (by rw [snesCex_take, snesCex_offset, Nat.add_zero]; exact snesCex_hirom)

theorem mem_stripWhile {p : Char → Bool} {cs : List Char} {c : Char}
    (h : c ∈ stripWhile p cs) : c ∈ cs := by
  unfold stripWhile at h
  rw [List.mem_reverse] at h
  have h1 := (List.dropWhile_subset p) h
  rw [List.mem_reverse] at h1
  exact (List.dropWhile_subset p) h1

/-- Claim C10 (amended): beyond the checksum gate, the SNES parser
rejects a candidate offset when the 21-byte title field **decodes** to a
blank string: title bytes that are all `0x00` or space are rejected, but
a `0xFF` byte decodes (ASCII, `errors="replace"`) to the replacement
character U+FFFD, so a title of `0xFF` bytes is *not* blank to the code —
the `"\xff"` arm of the filter is unreachable. -/
theorem snes_blank_title_rejection (data : List Nat) (base : Nat)
    (h : ∀ b ∈ (data.drop (base + 0x10)).take 0x15, b = 0 ∨ b = 32) :
    try_parse_at data base = none := by
  simp only [try_parse_at]
  by_cases hlen : base + 0x30 > data.length
  · rw [if_pos hlen]
  · rw [if_neg hlen]
    by_cases hgate : (snesChecksum data base ^^^ snesChecksumComplement data base) ≠ 0xFFFF
    · rw [if_pos hgate]
    · rw [if_neg hgate]
      have hcond : (pyStrip (pyStripChar (Char.ofNat 0)
          (decodeAsciiReplace ((data.drop (base + 0x10)).take 0x15))) = [] ∨
          (pyStrip (pyStripChar (Char.ofNat 0)
            (decodeAsciiReplace ((data.drop (base + 0x10)).take 0x15)))).all
            (fun c => c == Char.ofNat 0 || c == Char.ofNat 0xFF || c == ' ') = true) := by
        by_cases hnil : pyStrip (pyStripChar (Char.ofNat 0)
            (decodeAsciiReplace ((data.drop (base + 0x10)).take 0x15))) = []
        · exact Or.inl hnil
        · refine Or.inr ?_
          rw [List.all_eq_true]
          intro c hc
          have hc1 : c ∈ decodeAsciiReplace ((data.drop (base + 0x10)).take 0x15) :=
            mem_stripWhile (mem_stripWhile hc)
          simp only [decodeAsciiReplace, List.mem_map] at hc1
          obtain ⟨b, hb, rfl⟩ := hc1
          rcases h b hb with rfl | rfl
          · decide
          · decide
      rw [if_pos hcond]

/-- A 0x30-byte buffer: 16 zero bytes, then 21 `0xFF` title bytes, then
zero map-mode..version bytes, complement `FF FF`, checksum `00 00`. -/
def snesBlankCex : List Nat :=
  List.replicate 16 0 ++ List.replicate 21 0xFF ++ List.replicate 7 0 ++ [0xFF, 0xFF, 0, 0]

/-- Claim C10 counterexample: a buffer whose checksum gate passes at
offset 0 and whose 21 title bytes are all `0xFF` (blank per the claim)
is *accepted* by `_try_parse_at`, not rejected. -/
theorem snes_blank_title_counterexample :
    (snesChecksum snesBlankCex 0 ^^^ snesChecksumComplement snesBlankCex 0) = 0xFFFF ∧
    (∀ b ∈ (snesBlankCex.drop (0 + 0x10)).take 0x15, b = 0xFF) ∧
    try_parse_at snesBlankCex 0 ≠ none := by
  decide

/-- Witness for `snes_blank_title_rejection` on an all-zero 0x30-byte
buffer (title bytes all `0x00`). -/
theorem snes_blank_title_rejection_witness :
    (∀ b ∈ ((List.replicate 0x30 (0 : Nat)).drop (0 + 0x10)).take 0x15, b = 0 ∨ b = 32) ∧
    try_parse_at (List.replicate 0x30 0) 0 = none :=
  ⟨by decide, snes_blank_title_rejection (List.replicate 0x30 0) 0 (by decide)⟩

/-! ## Reference tables and the NES identification pipeline
(`src/app/plugins/nes/plugin.py`)

The two JSON reference tables are modelled as association lists (first
binding wins, like a Python `dict` built once).  A ROM file on disk is a
`FileState`: its bytes, whether it lives in the system temp directory,
and the state of its `.bak` sibling. -/

/-- A value of the official `games.json` table: `{name, id}`. -/
structure GameEntry where
  name : String
  id : Int
deriving DecidableEq

/-- A value of the custom `games_custom.json` table: `{name, region}`
(the region key may be absent). -/
structure CustomEntry where
  name : String
  region : Option String
deriving DecidableEq

/-- Python `dict.get(k)` over a keyed table. -/
def lookup {α : Type} (db : List (String × α)) (k : String) : Option α :=
  (db.find? (fun p => p.1 == k)).map Prod.snd

/-- The fields of `RomInfo` that the NES pipeline populates and the
claims mention (`region`/`version` never influence control flow and are
omitted). -/
structure RomInfo where
  title_id : String
  title_name : String
  content_type : String
  file_type : String
  dat_crc32 : Option (List String)
  dat_id : Int
deriving DecidableEq

/-- A ROM file on disk together with its `.bak` sibling state. -/
structure FileState where
  content : List Nat
  isTemp : Bool
  bakExists : Bool
  bakContent : Option (List Nat)
deriving DecidableEq

/-- `_fix_nes_header(path, original_data, correct_header)`: no-op when
the header already matches; otherwise back the file up first (skipped
for temp scratch copies; an existing `.bak` is never overwritten) and
overwrite the first 16 bytes. -/
def fix_nes_header (st : FileState) (original_data correct_header : List Nat) : FileState :=
  if original_data.take 16 = correct_header then st
  else
    let st1 :=
      if st.isTemp then st
      else if st.bakExists then st
      else { st with bakExists := true, bakContent := some st.content }
    { st1 with content := correct_header ++ original_data.drop 16 }

/-- 64 MiB — the `max_size` default of the NES plugin helpers. -/
def nesMaxSize : Nat := 67108864

/-- The candidate loop of `_match_with_dat_header`: the first DAT header
whose `crc32(header + body)` is a key of the official table wins, and
the file is fixed in place. -/
def matchLoop (games : List (String × GameEntry)) (st : FileState) (body : List Nat) :
    List (List Nat) → String × FileState
  | [] => ("", st)
  | hdr :: rest =>
    if (lookup games (crc32_str (hdr ++ body))).isSome then
      (crc32_str (hdr ++ body), fix_nes_header st st.content hdr)
    else matchLoop games st body rest

/-- `NESGamePlugin._match_with_dat_header(path)`: returns the matched
CRC string (or `""`) and the possibly-rewritten file. -/
def match_with_dat_header (headers : List (List Nat)) (games : List (String × GameEntry))
    (st : FileState) : String × FileState :=
  if headers = [] then ("", st)
  else if st.content.length > nesMaxSize ∨ st.content.length < 16 then ("", st)
  else if st.content.take 4 ≠ inesMagic then ("", st)
  else matchLoop games st (st.content.drop 16) headers

/-- Outcome of `parse_rom_info`, instrumented with the priority tier
that produced the final name (0 = header parse failed, 1 = custom table,
2 = official table, 3 = header repair, 4 = filename stem) and whether
the repair engine was invoked. -/
structure ParseOutcome where
  info : Option RomInfo
  state : FileState
  tier : Nat
  repairTried : Bool
deriving DecidableEq

/-- `NESGamePlugin.parse_rom_info(rom_path)`: the four-tier name
resolution with in-place repair at tier 3.  `stem` is `rom_path.stem`. -/
def parse_rom_info (customDb : List (String × CustomEntry))
    (games : List (String × GameEntry)) (headers : List (List Nat))
    (st : FileState) (stem : String) : ParseOutcome :=
  match parse_nes_header st.content with
  | none => { info := none, state := st, tier := 0, repairTried := false }
  | some _ =>
    let crc := compute_crc32 (some st.content.length) (some st.content) nesMaxSize
    -- Priority 1: custom DB (fan translations etc.) keyed by CRC32
    let custom := if crc ≠ "" then lookup customDb crc else none
    let title1 := match custom with | some c => c.name | none => ""
    let dat1 : Option (List String) := if custom.isSome then some [crc] else none
    -- Priority 2: official games DB keyed by CRC32 (direct match)
    let dbEntry := if title1 = "" ∧ crc ≠ "" then lookup games crc else none
    let title2 := match dbEntry with | some e => e.name | none => title1
    let datId2 : Int := match dbEntry with | some e => e.id | none => -1
    let dat2 := if dbEntry.isSome then some [crc] else dat1
    -- Priority 3: header-based matching; fixes the ROM file in place
    let doRepair := title2 = "" ∧ crc ≠ ""
    let mres := if doRepair then match_with_dat_header headers games st else ("", st)
    let mEntry := if mres.1 ≠ "" then lookup games mres.1 else none
    let title3 :=
      if mres.1 ≠ "" then (match mEntry with | some e => e.name | none => "") else title2
    let datId3 :=
      if mres.1 ≠ "" then (match mEntry with | some e => e.id | none => (-1 : Int)) else datId2
    let dat3 := if mres.1 ≠ "" then some [mres.1] else dat2
    let crc3 := if mres.1 ≠ "" then mres.1 else crc
    -- Priority 4: filename stem (NES has no embedded game title)
    let title4 := if title3 = "" then stem else title3
    { info := some
        { title_id := if crc3 ≠ "" then crc3 else stem
          title_name := title4
          content_type := "raw"
          file_type := "base"
          dat_crc32 := dat3
          dat_id := datId3 }
      state := mres.2
      tier := if title1 ≠ "" then 1 else if title2 ≠ "" then 2 else if title3 ≠ "" then 3 else 4
      repairTried := doRepair }

/-! ## Filename helpers (`pathlib.PurePath.stem` / `.suffix`) -/

/-- Index of the last occurrence of `c0`, or `none`. -/
def lastIdxOf (c0 : Char) : List Char → Option Nat
  | [] => none
  | c :: cs =>
    match lastIdxOf c0 cs with
    | some i => some (i + 1)
    | none => if c = c0 then some 0 else none

/-- `pathlib` `Path(name).stem` for a file name (final path component):
the name up to its last `.`, when that dot is neither leading nor
trailing. -/
def path_stem (name : String) : String :=
  match lastIdxOf '.' name.data with
  | some i => if 0 < i ∧ i < name.data.length - 1 then String.mk (name.data.take i) else name
  | none => name

/-- Split a character list at `/` separators. -/
def splitSlash : List Char → List (List Char)
  | [] => [[]]
  | c :: cs =>
    let r := splitSlash cs
    if c = '/' then [] :: r
    else
      match r with
      | [] => [[c]]
      | s :: rest => (c :: s) :: rest

/-- The last non-empty `/`-separated component (POSIX `Path(name).name`;
the `.`/`..` special components do not occur in ZIP member names). -/
def lastComponent (cs : List Char) : List Char :=
  (((splitSlash cs).filter (fun s => !s.isEmpty)).getLast?).getD []

/-- `pathlib` `Path(name).suffix`: from the last `.` of the final
component, when neither leading nor trailing. -/
def path_suffix (name : String) : String :=
  let nm := lastComponent name.data
  match lastIdxOf '.' nm with
  | some i => if 0 < i ∧ i < nm.length - 1 then String.mk (nm.drop i) else ""
  | none => ""

/-- `Path(name).suffix.lower()`. -/
def suffix_lower (name : String) : String :=
  String.mk ((path_suffix name).data.map Char.toLower)

/-! ## ZIP archive adapter (`src/app/core/rom_manager.py`) -/

/-- A ZIP archive: member list (name, bytes) plus `.bak` sibling state. -/
structure ZipState where
  entries : List (String × List Nat)
  bakExists : Bool
  bakEntries : Option (List (String × List Nat))
deriving DecidableEq

/-- `RomManager._update_rom_in_zip(zip_path, rom_name, fixed_data)`:
copy the archive to `.bak` if absent, then rewrite it with the updated
ROM first and every other member preserved. -/
def update_rom_in_zip (z : ZipState) (rom_name : String) (fixed : List Nat) : ZipState :=
  let others := z.entries.filter (fun p => p.1 != rom_name)
  let z1 := if z.bakExists then z else { z with bakExists := true, bakEntries := some z.entries }
  { z1 with entries := (rom_name, fixed) :: others }

/-- `RomManager._process_zip(zip_path, rom_exts, game_plugin)`: extract
the first member whose extension matches, run identification on the
scratch copy (`effect` is the identification pipeline's effect on the
member's bytes), and write back only when the bytes changed. -/
def process_zip (z : ZipState) (rom_exts : List String)
    (effect : List Nat → List Nat) : ZipState :=
  match z.entries.find? (fun p => rom_exts.contains (suffix_lower p.1)) with
  | none => z
  | some (rom_name, original) =>
    if effect original ≠ original then update_rom_in_zip z rom_name (effect original) else z

/-- The NES pipeline's effect on a ZIP-extracted scratch copy: the
scratch file lives in the temp directory, so `isTemp = true`; the
scratch file's random stem does not influence the bytes. -/
def nes_zip_effect (customDb : List (String × CustomEntry))
    (games : List (String × GameEntry)) (headers : List (List Nat))
    (content : List Nat) : List Nat :=
  (parse_rom_info customDb games headers
    { content := content, isTemp := true, bakExists := false, bakContent := none } "").state.content

/-! ### Basic facts about the repair engine -/

theorem crc32_str_ne_empty (data : List Nat) : crc32_str data ≠ "" :=
  toHex8_ne_empty _

theorem matchLoop_unmatched (games : List (String × GameEntry)) (st : FileState)
    (body : List Nat) : ∀ hs, (matchLoop games st body hs).1 = "" →
    (matchLoop games st body hs).2 = st := by
  intro hs
  induction hs with
  | nil => intro _; rfl
  | cons hdr rest ih =>
    intro h
    by_cases hc : (lookup games (crc32_str (hdr ++ body))).isSome = true
    · exfalso
      simp only [matchLoop, if_pos hc] at h
      exact crc32_str_ne_empty _ h
    · simp only [matchLoop, if_neg hc] at h ⊢
      exact ih h

/-- Claim C2: whenever the engine rewrites a file in place (overwriting
the 16-byte NES header, or rewriting a member inside a ZIP archive), a
`.bak` sibling copy is created first if one does not already exist,
skipped only for temp-directory scratch copies; and when the repair
engine finds no matching header, the target file is left unchanged. -/
theorem backup_before_rewrite :
    (∀ (st : FileState) (hdr : List Nat),
      (fix_nes_header st st.content hdr).content ≠ st.content → st.isTemp = false →
        (fix_nes_header st st.content hdr).bakExists = true ∧
        (st.bakExists = false →
          (fix_nes_header st st.content hdr).bakContent = some st.content)) ∧
    (∀ (z : ZipState) (rom : String) (fixed : List Nat),
      (update_rom_in_zip z rom fixed).bakExists = true ∧
      (z.bakExists = false → (update_rom_in_zip z rom fixed).bakEntries = some z.entries)) ∧
    (∀ headers games st, (match_with_dat_header headers games st).1 = "" →
      (match_with_dat_header headers games st).2 = st) := by
  refine ⟨?_, ?_, ?_⟩
  · intro st hdr hchanged htemp
    by_cases hsame : st.content.take 16 = hdr
    · exfalso
      apply hchanged
      simp only [fix_nes_header, if_pos hsame]
    · simp only [fix_nes_header, if_neg hsame, htemp]
      by_cases hbak : st.bakExists = true
      · simp [hbak]
      · simp only [Bool.not_eq_true] at hbak
        simp [hbak]
  · intro z rom fixed
    by_cases hbak : z.bakExists = true
    · simp [update_rom_in_zip, hbak]
    · simp only [Bool.not_eq_true] at hbak
      simp [update_rom_in_zip, hbak]
  · intro headers games st h
    unfold match_with_dat_header at h ⊢
    by_cases h1 : headers = []
    · rw [if_pos h1]
    · rw [if_neg h1] at h ⊢
      by_cases h2 : st.content.length > nesMaxSize ∨ st.content.length < 16
      · rw [if_pos h2]
      · rw [if_neg h2] at h ⊢
        by_cases h3 : st.content.take 4 ≠ inesMagic
        · rw [if_pos h3]
        · rw [if_neg h3] at h ⊢
          exact matchLoop_unmatched games st _ headers h

/-- A 16-byte NES file: magic plus twelve zero bytes. -/
def nesCexContent : List Nat := inesMagic ++ List.replicate 12 0

/-- A DAT pool header that differs from `nesCexContent`'s header. -/
def nesCexHeader : List Nat := inesMagic ++ (List.replicate 11 0 ++ [1])

/-- An official table containing the CRC of `nesCexHeader ++ []`. -/
def nesCexGames : List (String × GameEntry) :=
  [(crc32_str nesCexHeader, { name := "Game", id := 7 })]

/-- A custom table that also contains the matched CRC. -/
def nesCexCustom : List (String × CustomEntry) :=
  [(crc32_str nesCexHeader, { name := "Hack", region := some "Japan" })]

/-- The NES file above, on disk outside the temp directory, no backup. -/
def nesCexSt : FileState :=
  { content := nesCexContent, isTemp := false, bakExists := false, bakContent := none }

/-- A one-member ZIP archive with no backup yet. -/
def zipCexW : ZipState :=
  { entries := [("a.nes", [1])], bakExists := false, bakEntries := none }

/-- Witness for `backup_before_rewrite` at concrete inputs. -/
theorem backup_before_rewrite_witness :
    ((fix_nes_header nesCexSt nesCexSt.content nesCexHeader).bakExists = true ∧
      (nesCexSt.bakExists = false →
        (fix_nes_header nesCexSt nesCexSt.content nesCexHeader).bakContent
          = some nesCexSt.content)) ∧
    ((update_rom_in_zip zipCexW "a.nes" [2]).bakExists = true) ∧
    (match_with_dat_header [] nesCexGames nesCexSt).2 = nesCexSt :=
  ⟨backup_before_rewrite.1 nesCexSt nesCexHeader (by decide) (by decide),
   (backup_before_rewrite.2.1 zipCexW "a.nes" [2]).1,
   backup_before_rewrite.2.2 [] nesCexGames nesCexSt (by decide)⟩

/-! ### Characterizing a successful repair -/

/-- The first pool header whose recomputed CRC is an official-table key. -/
def firstMatch (games : List (String × GameEntry)) (body : List Nat) :
    List (List Nat) → Option (List Nat)
  | [] => none
  | hdr :: rest =>
    if (lookup games (crc32_str (hdr ++ body))).isSome then some hdr
    else firstMatch games body rest

theorem firstMatch_mem {games : List (String × GameEntry)} {body hdr : List Nat} :
    ∀ {hs}, firstMatch games body hs = some hdr → hdr ∈ hs := by
  intro hs
  induction hs with
  | nil => intro h; cases h
  | cons h0 rest ih =>
    intro h
    simp only [firstMatch] at h
    by_cases hc : (lookup games (crc32_str (h0 ++ body))).isSome = true
    · rw [if_pos hc] at h
      cases h
      exact List.mem_cons_self _ _
    · rw [if_neg hc] at h
      exact List.mem_cons_of_mem _ (ih h)

theorem firstMatch_pred {games : List (String × GameEntry)} {body hdr : List Nat} :
    ∀ {hs}, firstMatch games body hs = some hdr →
      (lookup games (crc32_str (hdr ++ body))).isSome = true := by
  intro hs
  induction hs with
  | nil => intro h; cases h
  | cons h0 rest ih =>
    intro h
    simp only [firstMatch] at h
    by_cases hc : (lookup games (crc32_str (h0 ++ body))).isSome = true
    · rw [if_pos hc] at h
      cases h
      exact hc
    · rw [if_neg hc] at h
      exact ih h

theorem matchLoop_eq (games : List (String × GameEntry)) (st : FileState) (body : List Nat) :
    ∀ hs, matchLoop games st body hs =
      match firstMatch games body hs with
      | none => ("", st)
      | some hdr => (crc32_str (hdr ++ body), fix_nes_header st st.content hdr) := by
  intro hs
  induction hs with
  | nil => rfl
  | cons hdr rest ih =>
    simp only [matchLoop, firstMatch] at ih ⊢
    by_cases hc : (lookup games (crc32_str (hdr ++ body))).isSome = true
    · rw [if_pos hc, if_pos hc]
    · rw [if_neg hc, if_neg hc]
      exact ih

theorem match_with_dat_header_matched {headers : List (List Nat)}
    {games : List (String × GameEntry)} {st : FileState} {crc : String} {st' : FileState}
    (h : match_with_dat_header headers games st = (crc, st')) (hne : crc ≠ "") :
    st.content.length ≤ nesMaxSize ∧ 16 ≤ st.content.length ∧
    st.content.take 4 = inesMagic ∧
    ∃ hdr, firstMatch games (st.content.drop 16) headers = some hdr ∧
      st'.content = hdr ++ st.content.drop 16 ∧
      crc = crc32_str (hdr ++ st.content.drop 16) ∧
      (lookup games crc).isSome = true ∧
      st' = fix_nes_header st st.content hdr := by
  unfold match_with_dat_header at h
  by_cases h1 : headers = []
  · rw [if_pos h1] at h
    cases h
    exact absurd rfl hne
  · rw [if_neg h1] at h
    by_cases h2 : st.content.length > nesMaxSize ∨ st.content.length < 16
    · rw [if_pos h2] at h
      cases h
      exact absurd rfl hne
    · rw [if_neg h2] at h
      push_neg at h2
      by_cases h3 : st.content.take 4 ≠ inesMagic
      · rw [if_pos h3] at h
        cases h
        exact absurd rfl hne
      · rw [if_neg h3] at h
        rw [matchLoop_eq] at h
        refine ⟨h2.1, by omega, not_not.mp h3, ?_⟩
        cases hfm : firstMatch games (st.content.drop 16) headers with
        | none =>
          rw [hfm] at h
          cases h
          exact absurd rfl hne
        | some hdr =>
          rw [hfm] at h
          cases h
          refine ⟨hdr, rfl, ?_, rfl, firstMatch_pred hfm, rfl⟩
          unfold fix_nes_header
          by_cases hsame : st.content.take 16 = hdr
          · rw [if_pos hsame]
            conv_lhs => rw [← List.take_append_drop 16 st.content]
            rw [hsame]
          · rw [if_neg hsame]

theorem parse_nes_header_magic_some (content : List Nat) (hlen : 16 ≤ content.length)
    (hmagic : content.take 4 = inesMagic) : ∃ hd, parse_nes_header content = some hd := by
  simp only [parse_nes_header]
  rw [if_neg (by rw [List.length_take]; omega),
    if_neg (by rw [List.take_take]; norm_num; simpa using hmagic)]
  exact ⟨_, rfl⟩

theorem compute_crc32_of_le {sz : Nat} {maxSize : Nat} (data : List Nat) (h : sz ≤ maxSize) :
    compute_crc32 (some sz) (some data) maxSize = crc32_str data := by
  simp [compute_crc32, Nat.not_lt.mpr h]

/-- Claim C1 (amended): for every NES file that the header repair engine
successfully repairs, the CRC32 of the post-repair bytes equals the
matched reference CRC32, which is a key of the official table; provided
the pool headers are 16-byte iNES headers and the matched official
entry's name is non-empty, re-running identification on the repaired
file does not invoke the repair engine again and leaves the file
unchanged, and it resolves at priority tier 2 provided additionally the
matched CRC32 is not a key of the custom table (a custom-table hit would
resolve at tier 1 instead). -/
theorem nes_repair_roundtrip
    (customDb : List (String × CustomEntry)) (games : List (String × GameEntry))
    (headers : List (List Nat)) (st : FileState) (stem crc : String) (st' : FileState)
    (hhdr : ∀ h ∈ headers, h.length = 16 ∧ h.take 4 = inesMagic)
    (hmatch : match_with_dat_header headers games st = (crc, st'))
    (hne : crc ≠ "") :
    crc32_str st'.content = crc ∧
    ∃ e, lookup games crc = some e ∧
      (e.name ≠ "" →
        (parse_rom_info customDb games headers st' stem).repairTried = false ∧
        (parse_rom_info customDb games headers st' stem).state = st' ∧
        (lookup customDb crc = none →
          (parse_rom_info customDb games headers st' stem).tier = 2 ∧
          ∃ i, (parse_rom_info customDb games headers st' stem).info = some i ∧
            i.title_name = e.name ∧ i.dat_crc32 = some [crc] ∧ i.title_id = crc)) := by
  obtain ⟨hmax, h16, _, hdr, hfm, hcontent, hcrcdef, hsome, _⟩ :=
    match_with_dat_header_matched hmatch hne
  obtain ⟨hdrlen, hdrmagic⟩ := hhdr hdr (firstMatch_mem hfm)
  have hlen' : st'.content.length = st.content.length := by
    rw [hcontent, List.length_append, hdrlen, List.length_drop]
    omega
  have hmagic' : st'.content.take 4 = inesMagic := by
    rw [hcontent, List.take_append_eq_append_take, hdrlen]
    norm_num
    exact hdrmagic
  have hcrceq : crc32_str st'.content = crc := by
    rw [hcontent]
    exact hcrcdef.symm
  refine ⟨hcrceq, ?_⟩
  obtain ⟨e, he⟩ : ∃ e, lookup games crc = some e := by
    cases hl : lookup games crc
    · rw [hl] at hsome
      simp at hsome
    · exact ⟨_, rfl⟩
  refine ⟨e, he, ?_⟩
  intro hename
  obtain ⟨hd, hparse⟩ :=
    parse_nes_header_magic_some st'.content (by omega) hmagic'
  have hcomp : compute_crc32 (some st'.content.length) (some st'.content) nesMaxSize = crc := by
    rw [compute_crc32_of_le st'.content (by omega)]
    exact hcrceq
  simp only [parse_rom_info, hparse, hcomp]
  cases hcust : lookup customDb crc with
  | some c =>
    by_cases hcn : c.name = ""
    · -- empty custom name: falls through to the official table
      refine ⟨?_, ?_, ?_⟩
      · simp [hne, hcust, hcn, he, hename]
      · simp [hne, hcust, hcn, he, hename]
      · intro hnone
        simp at hnone
    · -- non-empty custom name resolves at tier 1, repair not invoked
      refine ⟨?_, ?_, ?_⟩
      · simp [hne, hcust, hcn]
      · simp [hne, hcust, hcn]
      · intro hnone
        simp at hnone
  | none =>
    refine ⟨?_, ?_, ?_⟩
    · simp [hne, hcust, he, hename]
    · simp [hne, hcust, he, hename]
    · intro _
      refine ⟨?_, ?_⟩
      · simp [hne, hcust, he, hename]
      · refine ⟨_, rfl, ?_, ?_, ?_⟩
        · simp [hne, hcust, he, hename]
        · simp [hne, hcust, he, hename]
        · simp [hne, hcust, he, hename]

/-- Claim C1 counterexample: the repair engine repairs `nesCexSt`
successfully (the match is non-empty), but because the matched CRC is
also a key of the custom table, re-running identification on the
repaired file resolves at priority tier 1 (custom table), not tier 2. -/
theorem nes_repair_roundtrip_counterexample :
    (match_with_dat_header [nesCexHeader] nesCexGames nesCexSt).1 ≠ "" ∧
    (parse_rom_info nesCexCustom nesCexGames [nesCexHeader]
      (match_with_dat_header [nesCexHeader] nesCexGames nesCexSt).2 "stem").tier = 1 ∧
    (parse_rom_info nesCexCustom nesCexGames [nesCexHeader]
      (match_with_dat_header [nesCexHeader] nesCexGames nesCexSt).2 "stem").tier ≠ 2 := by
  decide

/-- The repair result on the concrete NES file. -/
def nesCexMatched : String × FileState :=
  match_with_dat_header [nesCexHeader] nesCexGames nesCexSt

/-- Witness for `nes_repair_roundtrip` at concrete inputs (with an empty
custom table). -/
theorem nes_repair_roundtrip_witness :
    crc32_str nesCexMatched.2.content = nesCexMatched.1 ∧
    ∃ e, lookup nesCexGames nesCexMatched.1 = some e ∧
      (e.name ≠ "" →
        (parse_rom_info [] nesCexGames [nesCexHeader] nesCexMatched.2 "stem").repairTried
          = false ∧
        (parse_rom_info [] nesCexGames [nesCexHeader] nesCexMatched.2 "stem").state
          = nesCexMatched.2 ∧
        (lookup ([] : List (String × CustomEntry)) nesCexMatched.1 = none →
          (parse_rom_info [] nesCexGames [nesCexHeader] nesCexMatched.2 "stem").tier = 2 ∧
          ∃ i, (parse_rom_info [] nesCexGames [nesCexHeader] nesCexMatched.2 "stem").info
              = some i ∧
            i.title_name = e.name ∧ i.dat_crc32 = some [nesCexMatched.1] ∧
            i.title_id = nesCexMatched.1)) :=
  nes_repair_roundtrip [] nesCexGames [nesCexHeader] nesCexSt "stem"
    nesCexMatched.1 nesCexMatched.2 (by decide) rfl (by decide)

/-! ### The four-tier name precedence (claim C6) -/

/-- The CRC the pipeline computes for a file (64 MiB ceiling). -/
def nes_crc (st : FileState) : String :=
  compute_crc32 (some st.content.length) (some st.content) nesMaxSize

/-- The name tier 1 yields: custom table keyed by the file's CRC32. -/
def nes_custom_name (customDb : List (String × CustomEntry)) (crc : String) : String :=
  if crc ≠ "" then
    match lookup customDb crc with
    | some c => c.name
    | none => ""
  else ""

/-- The name tier 2 yields: official table keyed by the same CRC32. -/
def nes_official_name (games : List (String × GameEntry)) (crc : String) : String :=
  if crc ≠ "" then
    match lookup games crc with
    | some e => e.name
    | none => ""
  else ""

/-- The name tier 3 yields: official-table entry of the repair engine's
matched CRC32. -/
def nes_repair_name (headers : List (List Nat)) (games : List (String × GameEntry))
    (st : FileState) (crc : String) : String :=
  if crc ≠ "" ∧ (match_with_dat_header headers games st).1 ≠ "" then
    match lookup games (match_with_dat_header headers games st).1 with
    | some e => e.name
    | none => ""
  else ""

theorem path_stem_ne_empty (name : String) (h : name ≠ "") : path_stem name ≠ "" := by
  have hdata : name.data ≠ [] := by
    intro hd
    apply h
    cases name with
    | mk l =>
      simp only [String.data] at hd
      rw [hd]
  unfold path_stem
  cases hidx : lastIdxOf '.' name.data with
  | none => exact h
  | some i =>
    show (if 0 < i ∧ i < name.data.length - 1 then String.mk (name.data.take i) else name) ≠ ""
    by_cases hcond : 0 < i ∧ i < name.data.length - 1
    · rw [if_pos hcond]
      intro hemp
      have h0 : name.data.take i = ([] : List Char) := congrArg String.data hemp
      rw [List.take_eq_nil_iff] at h0
      rcases h0 with h0 | h0
      · omega
      · exact hdata h0
    · rw [if_neg hcond]
      exact h

/-- Claim C6: for every NES file whose header parses, name resolution
follows the fixed precedence — custom table by the file's CRC32, then
official table by the same key, then header-pool repair matching, then
filename stem — stopping at the first tier that yields a (non-empty)
name; the filename-stem tier always succeeds, so the returned record's
`title_name` is non-empty whenever the file has a non-empty name. -/
theorem nes_name_precedence
    (customDb : List (String × CustomEntry)) (games : List (String × GameEntry))
    (headers : List (List Nat)) (st : FileState) (name : String) (hd : NESHeaderInfo)
    (hparse : parse_nes_header st.content = some hd) :
    ∃ i, (parse_rom_info customDb games headers st (path_stem name)).info = some i ∧
      i.title_name =
        (if nes_custom_name customDb (nes_crc st) ≠ "" then
          nes_custom_name customDb (nes_crc st)
        else if nes_official_name games (nes_crc st) ≠ "" then
          nes_official_name games (nes_crc st)
        else if nes_repair_name headers games st (nes_crc st) ≠ "" then
          nes_repair_name headers games st (nes_crc st)
        else path_stem name) ∧
      (name ≠ "" → i.title_name ≠ "") := by
  have hchain : ∀ a b c s : String, s ≠ "" →
      (if a ≠ "" then a else if b ≠ "" then b else if c ≠ "" then c else s) ≠ "" := by
    intro a b c s hs
    by_cases ha : a = "" <;> by_cases hb : b = "" <;> by_cases hc : c = "" <;>
      simp [ha, hb, hc, hs]
  obtain ⟨i, hi⟩ : ∃ i, (parse_rom_info customDb games headers st (path_stem name)).info
      = some i := by
    simp only [parse_rom_info, hparse]
    exact ⟨_, rfl⟩
  have htitle : i.title_name =
      (if nes_custom_name customDb (nes_crc st) ≠ "" then
        nes_custom_name customDb (nes_crc st)
      else if nes_official_name games (nes_crc st) ≠ "" then
        nes_official_name games (nes_crc st)
      else if nes_repair_name headers games st (nes_crc st) ≠ "" then
        nes_repair_name headers games st (nes_crc st)
      else path_stem name) := by
    simp only [parse_rom_info, hparse] at hi
    obtain rfl := (Option.some.inj hi)
    simp only [nes_crc, nes_custom_name, nes_official_name, nes_repair_name]
    by_cases hcrc0 : compute_crc32 (some st.content.length) (some st.content) nesMaxSize = ""
    · simp [hcrc0]
    · cases hcu : lookup customDb
          (compute_crc32 (some st.content.length) (some st.content) nesMaxSize) with
      | some c =>
        by_cases hcn : c.name = ""
        · cases hof : lookup games
              (compute_crc32 (some st.content.length) (some st.content) nesMaxSize) with
          | some e =>
            by_cases hen : e.name = ""
            · by_cases hm : (match_with_dat_header headers games st).1 = ""
              · simp [hcrc0, hcu, hcn, hof, hen, hm]
              · cases hml : lookup games (match_with_dat_header headers games st).1 with
                | some me => simp [hcrc0, hcu, hcn, hof, hen, hm, hml]
                | none => simp [hcrc0, hcu, hcn, hof, hen, hm, hml]
            · simp [hcrc0, hcu, hcn, hof, hen]
          | none =>
            by_cases hm : (match_with_dat_header headers games st).1 = ""
            · simp [hcrc0, hcu, hcn, hof, hm]
            · cases hml : lookup games (match_with_dat_header headers games st).1 with
              | some me => simp [hcrc0, hcu, hcn, hof, hm, hml]
              | none => simp [hcrc0, hcu, hcn, hof, hm, hml]
        · simp [hcrc0, hcu, hcn]
      | none =>
        cases hof : lookup games
            (compute_crc32 (some st.content.length) (some st.content) nesMaxSize) with
        | some e =>
          by_cases hen : e.name = ""
          · by_cases hm : (match_with_dat_header headers games st).1 = ""
            · simp [hcrc0, hcu, hof, hen, hm]
            · cases hml : lookup games (match_with_dat_header headers games st).1 with
              | some me => simp [hcrc0, hcu, hof, hen, hm, hml]
              | none => simp [hcrc0, hcu, hof, hen, hm, hml]
          · simp [hcrc0, hcu, hof, hen]
        | none =>
          by_cases hm : (match_with_dat_header headers games st).1 = ""
          · simp [hcrc0, hcu, hof, hm]
          · cases hml : lookup games (match_with_dat_header headers games st).1 with
            | some me => simp [hcrc0, hcu, hof, hm, hml]
            | none => simp [hcrc0, hcu, hof, hm, hml]
  refine ⟨i, hi, htitle, fun hn => ?_⟩
  rw [htitle]
  exact hchain _ _ _ _ (path_stem_ne_empty name hn)

/-- The header record of `nesCexContent` (all-zero flags). -/
def nesCexHd : NESHeaderInfo :=
  { prg_rom_size := 0, chr_rom_size := 0, mapper := 0, mirroring := "horizontal",
    has_battery := false, has_trainer := false, is_nes2 := false, tv_system := "NTSC",
    rom_size := 16 }

/-- Witness for `nes_name_precedence` at concrete inputs. -/
theorem nes_name_precedence_witness :
    ∃ i, (parse_rom_info nesCexCustom nesCexGames [nesCexHeader] nesCexSt
        (path_stem "Mario.nes")).info = some i ∧
      i.title_name =
        (if nes_custom_name nesCexCustom (nes_crc nesCexSt) ≠ "" then
          nes_custom_name nesCexCustom (nes_crc nesCexSt)
        else if nes_official_name nesCexGames (nes_crc nesCexSt) ≠ "" then
          nes_official_name nesCexGames (nes_crc nesCexSt)
        else if nes_repair_name [nesCexHeader] nesCexGames nesCexSt (nes_crc nesCexSt)
            ≠ "" then
          nes_repair_name [nesCexHeader] nesCexGames nesCexSt (nes_crc nesCexSt)
        else path_stem "Mario.nes") ∧
      ("Mario.nes" ≠ "" → i.title_name ≠ "") :=
  nes_name_precedence nesCexCustom nesCexGames [nesCexHeader] nesCexSt "Mario.nes"
    nesCexHd (by decide)

/-! ### Archive idempotence (claim C9) -/

theorem match_with_dat_header_unmatched (headers : List (List Nat))
    (games : List (String × GameEntry)) (st : FileState)
    (h : (match_with_dat_header headers games st).1 = "") :
    (match_with_dat_header headers games st).2 = st := by
  unfold match_with_dat_header at h ⊢
  by_cases h1 : headers = []
  · rw [if_pos h1]
  · rw [if_neg h1] at h ⊢
    by_cases h2 : st.content.length > nesMaxSize ∨ st.content.length < 16
    · rw [if_pos h2]
    · rw [if_neg h2] at h ⊢
      by_cases h3 : st.content.take 4 ≠ inesMagic
      · rw [if_pos h3]
      · rw [if_neg h3] at h ⊢
        exact matchLoop_unmatched games st _ headers h

theorem repair_state_cases (games : List (String × GameEntry))
    (headers : List (List Nat)) (st : FileState) :
    (match_with_dat_header headers games st).2 = st ∨
    (∃ hdr, firstMatch games (st.content.drop 16) headers = some hdr ∧
      16 ≤ st.content.length ∧
      (match_with_dat_header headers games st).2.content
        = hdr ++ st.content.drop 16) := by
  by_cases hm1 : (match_with_dat_header headers games st).1 = ""
  · left
    exact match_with_dat_header_unmatched headers games st hm1
  · right
    obtain ⟨_, h16, _, hdr, hfm, hcontent, _, _, _⟩ :=
      match_with_dat_header_matched
        (rfl : match_with_dat_header headers games st
          = ((match_with_dat_header headers games st).1,
             (match_with_dat_header headers games st).2)) hm1
    exact ⟨hdr, hfm, h16, hcontent⟩

theorem parse_rom_info_state (customDb : List (String × CustomEntry))
    (games : List (String × GameEntry)) (headers : List (List Nat))
    (st : FileState) (stem : String) :
    (parse_rom_info customDb games headers st stem).state = st ∨
    (∃ hdr, firstMatch games (st.content.drop 16) headers = some hdr ∧
      16 ≤ st.content.length ∧
      (parse_rom_info customDb games headers st stem).state.content
        = hdr ++ st.content.drop 16) := by
  cases hparse : parse_nes_header st.content with
  | none =>
    left
    simp [parse_rom_info, hparse]
  | some hd =>
    simp only [parse_rom_info, hparse]
    by_cases hcrc0 : compute_crc32 (some st.content.length) (some st.content) nesMaxSize = ""
    · left
      simp [hcrc0]
    · cases hcu : lookup customDb
          (compute_crc32 (some st.content.length) (some st.content) nesMaxSize) with
      | some c =>
        by_cases hcn : c.name = ""
        · cases hof : lookup games
              (compute_crc32 (some st.content.length) (some st.content) nesMaxSize) with
          | some e =>
            by_cases hen : e.name = ""
            · simpa [hcrc0, hcu, hcn, hof, hen] using repair_state_cases games headers st
            · left
              simp [hcrc0, hcu, hcn, hof, hen]
          | none => simpa [hcrc0, hcu, hcn, hof] using repair_state_cases games headers st
        · left
          simp [hcrc0, hcu, hcn]
      | none =>
        cases hof : lookup games
            (compute_crc32 (some st.content.length) (some st.content) nesMaxSize) with
        | some e =>
          by_cases hen : e.name = ""
          · simpa [hcrc0, hcu, hof, hen] using repair_state_cases games headers st
          · left
            simp [hcrc0, hcu, hof, hen]
        | none => simpa [hcrc0, hcu, hof] using repair_state_cases games headers st

theorem nes_zip_effect_idem (customDb : List (String × CustomEntry))
    (games : List (String × GameEntry)) (headers : List (List Nat))
    (hhdr : ∀ h ∈ headers, h.length = 16) (b : List Nat) :
    nes_zip_effect customDb games headers (nes_zip_effect customDb games headers b)
      = nes_zip_effect customDb games headers b := by
  rcases parse_rom_info_state customDb games headers
      { content := b, isTemp := true, bakExists := false, bakContent := none } "" with
    h | ⟨hdr, hfm, h16, hcont⟩
  · have hfb : nes_zip_effect customDb games headers b = b := by
      simp only [nes_zip_effect, h]
    rw [hfb]
    exact hfb
  · have hfb : nes_zip_effect customDb games headers b = hdr ++ b.drop 16 := by
      simp only [nes_zip_effect]
      exact hcont
    have hdrlen : hdr.length = 16 := hhdr hdr (firstMatch_mem hfm)
    have hdrop : (hdr ++ b.drop 16).drop 16 = b.drop 16 := by
      rw [show (16 : Nat) = hdr.length from hdrlen.symm]
      exact List.drop_left hdr _
    rw [hfb]
    rcases parse_rom_info_state customDb games headers
        { content := hdr ++ b.drop 16, isTemp := true, bakExists := false,
          bakContent := none } "" with
      h2 | ⟨hdr2, hfm2, _, hcont2⟩
    · simp only [nes_zip_effect, h2]
    · have hfm2' : firstMatch games (b.drop 16) headers = some hdr2 := by
        rw [← hdrop]
        exact hfm2
      have : hdr2 = hdr := by
        have := hfm2'.symm.trans hfm
        exact Option.some.inj this
      subst this
      simp only [nes_zip_effect]
      rw [hcont2]
      exact congrArg (hdr2 ++ ·) hdrop

/-- Claim C9: running identification twice on the same ZIP-wrapped ROM,
with no intervening repair, produces byte-identical archive contents
after the second run; the archive is rewritten only when the extracted
member's bytes differ from the original member's bytes.  (The pool
headers are the 16-byte variants of `header.json`.) -/
theorem zip_process_idempotent (customDb : List (String × CustomEntry))
    (games : List (String × GameEntry)) (headers : List (List Nat))
    (exts : List String) (z : ZipState)
    (hhdr : ∀ h ∈ headers, h.length = 16) :
    (process_zip (process_zip z exts (nes_zip_effect customDb games headers)) exts
      (nes_zip_effect customDb games headers)).entries
      = (process_zip z exts (nes_zip_effect customDb games headers)).entries ∧
    ((process_zip z exts (nes_zip_effect customDb games headers)).entries ≠ z.entries →
      ∃ nm orig, z.entries.find? (fun p => exts.contains (suffix_lower p.1))
          = some (nm, orig) ∧
        nes_zip_effect customDb games headers orig ≠ orig) := by
  cases hfind : z.entries.find? (fun p => exts.contains (suffix_lower p.1)) with
  | none =>
    have hz : process_zip z exts (nes_zip_effect customDb games headers) = z := by
      simp only [process_zip, hfind]
    rw [hz]
    exact ⟨congrArg ZipState.entries hz, fun hne => absurd rfl hne⟩
  | some p =>
    obtain ⟨nm, orig⟩ := p
    by_cases hch : nes_zip_effect customDb games headers orig ≠ orig
    · have hz1 : process_zip z exts (nes_zip_effect customDb games headers)
          = update_rom_in_zip z nm (nes_zip_effect customDb games headers orig) := by
        simp only [process_zip, hfind]
        rw [if_pos hch]
      have hpred : exts.contains (suffix_lower nm) = true := by
        have := List.find?_some hfind
        simpa using this
      have hupd : (update_rom_in_zip z nm (nes_zip_effect customDb games headers orig)).entries
          = (nm, nes_zip_effect customDb games headers orig)
            :: z.entries.filter (fun p => p.1 != nm) := by
        simp only [update_rom_in_zip]
      refine ⟨?_, fun _ => ⟨nm, orig, rfl, hch⟩⟩
      rw [hz1]
      have hfind2 : ((nm, nes_zip_effect customDb games headers orig)
            :: z.entries.filter (fun p => p.1 != nm)).find?
            (fun p => exts.contains (suffix_lower p.1))
          = some (nm, nes_zip_effect customDb games headers orig) := by
        simp only [List.find?]
        rw [hpred]
      simp only [process_zip, hupd, hfind2]
      rw [if_neg (by
        rw [nes_zip_effect_idem customDb games headers hhdr orig]
        exact fun hx => hx rfl)]
      exact hupd
    · have hz : process_zip z exts (nes_zip_effect customDb games headers) = z := by
        simp only [process_zip, hfind]
        rw [if_neg hch]
      rw [hz]
      exact ⟨congrArg ZipState.entries hz, fun hne => absurd rfl hne⟩

/-- Witness for `zip_process_idempotent` at a concrete one-member ZIP
with an empty pool. -/
theorem zip_process_idempotent_witness :
    (process_zip (process_zip zipCexW [".nes"] (nes_zip_effect [] [] [])) [".nes"]
      (nes_zip_effect [] [] [])).entries
      = (process_zip zipCexW [".nes"] (nes_zip_effect [] [] [])).entries ∧
    ((process_zip zipCexW [".nes"] (nes_zip_effect [] [] [])).entries ≠ zipCexW.entries →
      ∃ nm orig, zipCexW.entries.find? (fun p => [".nes"].contains (suffix_lower p.1))
          = some (nm, orig) ∧
        nes_zip_effect [] [] [] orig ≠ orig) :=
  zip_process_idempotent [] [] [] [".nes"] zipCexW (by decide)

end EmuMan
